import Mathlib

/-!
Verification of the `@rxpm/editor-js-code` Editor.js plugin (`src/index.js`).

The development embeds the plugin's logic shallowly:

* the Tab-key text transformation `tabHandler` acts on a text modelled as a
  `List Char` (a sequence of code units) together with a caret offset;
* the constructor's mode-registry resolution (`effectiveModes`,
  `resolveSelectedMode`) models JavaScript truthiness of `x || y` and of
  object-property lookup explicitly;
* the widget instance state (`CodeToolState`) carries the persisted record
  `_data` and the two view nodes, each `Option`-valued because the view may
  not have been built yet when the data setter runs.
-/

/-- The two-space indentation unit from `tabHandler` (`const indentation = '  '`). -/
def indentation : List Char := [' ', ' ']

/-- Modelled from the spec: the helper `getLineStartPosition` is imported in
`src/index.js` from `./utils/string`, a file absent from the sources.  Per the
spec it returns the offset of the first character of the line containing
position `c`, i.e. one past the nearest occurrence of the line separator
preceding `c`, or `0` when no line separator precedes `c`. -/
def getLineStartPosition (T : List Char) (c : Nat) : Nat :=
  match c with
  | 0 => 0
  | n + 1 => if T[n]? = some '\n' then n + 1 else getLineStartPosition T n

/-- Result of one Tab key press: the new textarea value and the caret offset
passed to `setSelectionRange`.  The caret is an `Int` because the source
computes `caretPosition - indentation.length` with no clamping. -/
structure TabResult where
  value : List Char
  caret : Int
deriving DecidableEq, Repr

/-- Embedding of `tabHandler` from `src/index.js`: on Tab, splice the
indentation unit at the caret; on Shift+Tab, remove it from the start of the
caret's line when the line starts with exactly that unit, else do nothing. -/
def tabHandler (value : List Char) (caretPosition : Nat) (isShiftPressed : Bool) : TabResult :=
  if isShiftPressed = false then
    { value := value.take caretPosition ++ indentation ++ value.drop caretPosition
      caret := (caretPosition : Int) + indentation.length }
  else
    let currentLineStart := getLineStartPosition value caretPosition
    let firstLineChars := (value.drop currentLineStart).take indentation.length
    if firstLineChars ≠ indentation then
      { value := value, caret := (caretPosition : Int) }
    else
      { value := value.take currentLineStart ++ value.drop (currentLineStart + indentation.length)
        caret := (caretPosition : Int) - indentation.length }

/-- `CodeTool.DEFAULT_MODE_KEY` from `src/index.js`. -/
def DEFAULT_MODE_KEY : String := "text"

/-- `CodeTool.DEFAULT_MODE_LABEL` from `src/index.js`. -/
def DEFAULT_MODE_LABEL : String := "Plain Text"

/-- JavaScript `a || b` on an optional string `a`: `undefined` and the empty
string are falsy, every other string is truthy. -/
def jsOrString (a : Option String) (b : Option String) : Option String :=
  match a with
  | some s => if s = "" then b else some s
  | none => b

/-- JavaScript `a || b` where `b` is a plain string (used for `data.code || ''`). -/
def jsOrStr (a : Option String) (b : String) : String :=
  match a with
  | some s => if s = "" then b else s
  | none => b

/-- The effective mode registry: `config.modes || { text: 'Plain Text' }`.
A supplied `modes` object is always truthy in JavaScript (even when empty), so
the fallback applies only when `config.modes` is absent.  A registry is an
ordered association list of (mode key, display label). -/
def effectiveModes (configModes : Option (List (String × String))) :
    List (String × String) :=
  match configModes with
  | some m => m
  | none => [(DEFAULT_MODE_KEY, DEFAULT_MODE_LABEL)]

/-- Truthiness of the property lookup `this.modes[k]`: a missing key is
`undefined` (falsy); a present key is truthy unless its label is `""`. -/
def modeLookupTruthy (modes : List (String × String)) (k : String) : Bool :=
  match modes.lookup k with
  | some label => label ≠ ""
  | none => false

/-- The constructor's `selectedMode` resolution together with the number of
`console.warn` calls it performs.  When `config.defaultMode` is a string and
`this.modes[defaultMode]` is falsy, it warns once and falls back to the
literal key `"text"`; when `defaultMode` is absent, it silently takes
`Object.keys(this.modes)[0]` (which is `undefined` on an empty registry,
modelled by `none`). -/
def resolveSelectedMode (modes : List (String × String))
    (defaultMode : Option String) : Option String × Nat :=
  match defaultMode with
  | some k =>
      if modeLookupTruthy modes k then (some k, 0) else (some DEFAULT_MODE_KEY, 1)
  | none => ((modes.map Prod.fst).head?, 0)

/-- The persisted record `this._data`.  The `mode` field is optional because
`data.mode || selectedMode` can be `undefined` when both operands are. -/
structure CodeData where
  code : String
  mode : Option String
deriving DecidableEq, Repr

/-- Widget instance state: the stored record and the two view nodes.
`textareaNode` holds the textarea's displayed text, `selectorNode` the
selector's displayed selection; either is `none` while the view node does not
exist (`this.nodes.* = null`). -/
structure CodeToolState where
  _data : CodeData
  selectorNode : Option (Option String)
  textareaNode : Option String
deriving DecidableEq, Repr

/-- The `set data` accessor of `src/index.js`: store the record, and when the
textarea node exists push the new code into its displayed content.  No other
node is touched. -/
def setData (s : CodeToolState) (d : CodeData) : CodeToolState :=
  { s with
    _data := d
    textareaNode :=
      match s.textareaNode with
      | some _ => some d.code
      | none => none }

/-- `onPaste` from `src/index.js`: assign, through the data setter, a record
whose code is the pasted node's `textContent` and whose mode is the current
one. -/
def onPaste (s : CodeToolState) (pastedTextContent : String) : CodeToolState :=
  setData s { code := pastedTextContent, mode := s._data.mode }

/-- `save` from `src/index.js`: read the live textarea value and the stored
mode.  `none` models the crash that would occur were no textarea present. -/
def save (s : CodeToolState) : Option CodeData :=
  match s.textareaNode with
  | some v => some { code := v, mode := s._data.mode }
  | none => none

/-- Result of running the constructor of `src/index.js`. -/
structure ConstructResult where
  modes : List (String × String)
  warnings : Nat
  state : CodeToolState
deriving DecidableEq, Repr

/-- Embedding of `CodeTool`'s constructor: resolve the registry and the
selected mode, assign `this.data = { code: data.code || '', mode: data.mode ||
selectedMode }` through the setter while both view nodes are still null, then
build the view (`drawView`), whose selector displays `this.data.mode` and
whose textarea displays `this.data.code`. -/
def construct (dataCode dataMode : Option String)
    (configModes : Option (List (String × String)))
    (configDefaultMode : Option String) : ConstructResult :=
  let modes := effectiveModes configModes
  let res := resolveSelectedMode modes configDefaultMode
  let s0 : CodeToolState :=
    { _data := { code := "", mode := none }, selectorNode := none, textareaNode := none }
  let s1 := setData s0 { code := jsOrStr dataCode "", mode := jsOrString dataMode res.1 }
  let s2 : CodeToolState :=
    { s1 with selectorNode := some s1._data.mode, textareaNode := some s1._data.code }
  { modes := modes, warnings := res.2, state := s2 }

/-- A user interaction on a rendered widget: typing into the textarea,
selecting a mode from the selector, or a host-delivered paste. -/
inductive UserEvent where
  | editText (t : String)
  | changeMode (m : String)
  | paste (t : String)
deriving DecidableEq, Repr

/-- One interaction step, as wired in `drawView` and `onPaste`: typing
replaces the textarea's displayed text (no listener copies it into `_data`);
the selector's change listener performs `this.data.mode = event.target.value`,
mutating the stored record directly while the native control updates its own
displayed selection; a paste event runs `onPaste`. -/
def step (s : CodeToolState) (e : UserEvent) : CodeToolState :=
  match e with
  | .editText t => { s with textareaNode := s.textareaNode.map (fun _ => t) }
  | .changeMode m =>
      { s with
        _data := { s._data with mode := some m }
        selectorNode := s.selectorNode.map (fun _ => some m) }
  | .paste t => onPaste s t

/-- Run a sequence of interactions. -/
def run (s : CodeToolState) (es : List UserEvent) : CodeToolState :=
  es.foldl step s

/-- The text the user currently sees, in the spec's terms: the text of the
last typing or paste event, else the initial surface content. -/
def specFinalText (init : String) (es : List UserEvent) : String :=
  es.foldl
    (fun acc e =>
      match e with
      | .editText t => t
      | .paste t => t
      | .changeMode _ => acc) init

/-- The last-selected mode key, in the spec's terms: the most recent
`changeMode` selection, else the effective initial mode. -/
def specLastMode (init : Option String) (es : List UserEvent) : Option String :=
  es.foldl
    (fun acc e =>
      match e with
      | .changeMode m => some m
      | _ => acc) init

/-- A concrete widget state whose view nodes exist. -/
def sampleStateWithView : CodeToolState :=
  { _data := { code := "a", mode := some "go" }
    selectorNode := some (some "go")
    textareaNode := some "a" }

/-- A concrete widget state whose view nodes do not exist yet. -/
def sampleStateNoView : CodeToolState :=
  { _data := { code := "a", mode := some "go" }
    selectorNode := none
    textareaNode := none }

/-- A concrete replacement record used to exercise the data setter. -/
def sampleRecord : CodeData :=
  { code := "b", mode := some "js" }

/-- Claim C1: for every text `T` and caret offset `c` with `c ≤ T.length`, the
indent operation (Tab without Shift) yields `T[0:c] ++ "  " ++ T[c:]` with
caret `c + 2`; hence the new length is `T.length + 2` and deleting the two
inserted characters at offset `c` restores `T` exactly. -/
theorem tab_indent_correct (T : List Char) (c : Nat) (h : c ≤ T.length) :
    tabHandler T c false =
      { value := T.take c ++ indentation ++ T.drop c, caret := (c : Int) + 2 } ∧
    (tabHandler T c false).value.length = T.length + 2 ∧
    (tabHandler T c false).value.take c ++ (tabHandler T c false).value.drop (c + 2) = T := by
  have hlen : (T.take c).length = c := by
    simp [List.length_take, Nat.min_eq_left h]
  refine ⟨rfl, ?_, ?_⟩
  · simp [tabHandler, indentation]
    omega
  · show (T.take c ++ indentation ++ T.drop c).take c ++
        (T.take c ++ indentation ++ T.drop c).drop (c + 2) = T
    have htake : (T.take c ++ ( indentation ++ T.drop c)).take c = T.take c :=
      List.take_left' hlen
    have hdroplen : (T.take c ++ indentation).length = c + 2 := by
      simp [hlen, indentation]
    have hdrop : ((T.take c ++ indentation) ++ T.drop c).drop (c + 2) = T.drop c :=
      List.drop_left' hdroplen
    calc (T.take c ++ indentation ++ T.drop c).take c ++
        (T.take c ++ indentation ++ T.drop c).drop (c + 2)
        = T.take c ++ T.drop c := by
          rw [List.append_assoc] at hdrop ⊢
          rw [htake, hdrop]
      _ = T := List.take_append_drop c T

/-- Witness for C1 at `T = "foo"`, `c = 0`: the result is `"  foo"` with caret 2. -/
theorem tab_indent_correct_witness :
    tabHandler ['f', 'o', 'o'] 0 false =
      { value := [' ', ' ', 'f', 'o', 'o'], caret := 2 } :=
  (tab_indent_correct ['f', 'o', 'o'] 0 (by decide)).1

/-- The guard `value.substr(s, 2) === '  '` of the outdent branch holds exactly
when the characters at offsets `s` and `s + 1` are both spaces. -/
theorem take_two_drop_eq_iff (T : List Char) (s : Nat) :
    (T.drop s).take 2 = [' ', ' '] ↔ T[s]? = some ' ' ∧ T[s + 1]? = some ' ' := by
  have h0 : (T.drop s)[0]? = T[s]? := by
    simp [List.getElem?_drop]
  have h1 : (T.drop s)[1]? = T[s + 1]? := by
    simp [List.getElem?_drop]
  rw [← h0, ← h1]
  rcases T.drop s with _ | ⟨a, _ | ⟨b, t⟩⟩ <;> simp

/-- Claim C2: outdent (Shift+Tab) with `s = getLineStartPosition T c` is a
no-op on both text and caret when the line does not begin with exactly two
spaces; otherwise it removes the two characters at `s` and moves the caret to
`c - 2` without clamping. -/
theorem tab_outdent_correct (T : List Char) (c : Nat) :
    (¬ (T[getLineStartPosition T c]? = some ' ' ∧
        T[getLineStartPosition T c + 1]? = some ' ') →
      tabHandler T c true = { value := T, caret := (c : Int) }) ∧
    ((T[getLineStartPosition T c]? = some ' ' ∧
        T[getLineStartPosition T c + 1]? = some ' ') →
      tabHandler T c true =
        { value := T.take (getLineStartPosition T c) ++
            T.drop (getLineStartPosition T c + 2)
          caret := (c : Int) - 2 }) := by
  constructor
  · intro hcond
    rw [← take_two_drop_eq_iff] at hcond
    simp [tabHandler, indentation, hcond]
  · intro hcond
    rw [← take_two_drop_eq_iff] at hcond
    simp [tabHandler, indentation, hcond]

/-- Witness for C2 at both branches: `T = "foo"`, `c = 1` is a no-op (scenario
3 of the spec), and `T = "  foo"`, `c = 2` removes the unit and moves the
caret to `0` (scenario 2 of the spec). -/
theorem tab_outdent_correct_witness :
    tabHandler ['f', 'o', 'o'] 1 true = { value := ['f', 'o', 'o'], caret := 1 } ∧
    tabHandler [' ', ' ', 'f', 'o', 'o'] 2 true =
      { value := ['f', 'o', 'o'], caret := 0 } :=
  ⟨(tab_outdent_correct ['f', 'o', 'o'] 1).1 (by decide),
   (tab_outdent_correct [' ', ' ', 'f', 'o', 'o'] 2).2 (by decide)⟩

/-- Claim C3 counterexample: for `T = "  ab"` and caret `c = 3` the line
containing the caret starts with the indentation unit, yet outdent followed by
indent at the resulting caret `c - 2 = 1` yields `"a  b"`, not `T`. -/
theorem outdent_indent_roundtrip_cex :
    ((([' ', ' ', 'a', 'b'] : List Char).drop
        (getLineStartPosition [' ', ' ', 'a', 'b'] 3)).take 2 = indentation) ∧
    (tabHandler (tabHandler [' ', ' ', 'a', 'b'] 3 true).value
        (tabHandler [' ', ' ', 'a', 'b'] 3 true).caret.toNat false).value ≠
      [' ', ' ', 'a', 'b'] := by
  decide

/-- Claim C3 as amended: outdent followed by indent at the resulting caret
restores the original text (and returns the caret to `c`) when the line
containing `c` starts with the indentation unit AND the caret sits immediately
after that unit, i.e. `c = lineStart + 2`. -/
theorem outdent_indent_roundtrip_amended (T : List Char) (c : Nat)
    (hcaret : getLineStartPosition T c + 2 = c)
    (hunit : (T.drop (getLineStartPosition T c)).take 2 = indentation) :
    (tabHandler (tabHandler T c true).value
        (tabHandler T c true).caret.toNat false).value = T ∧
    (tabHandler (tabHandler T c true).value
        (tabHandler T c true).caret.toNat false).caret = (c : Int) := by
  obtain ⟨s, hs⟩ : ∃ s, getLineStartPosition T c = s := ⟨_, rfl⟩
  rw [hs] at hcaret hunit
  have hdecomp : T.drop s = ' ' :: ' ' :: T.drop (s + 2) := by
    have hsplit := (List.take_append_drop 2 (T.drop s)).symm
    rw [hunit, List.drop_drop] at hsplit
    simpa [ indentation] using hsplit
  have hlen2 : 2 ≤ (T.drop s).length := by
    rw [hdecomp]
    simp
  have hlendrop : (T.drop s).length = T.length - s := List.length_drop s T
  have hslen : s + 2 ≤ T.length := by omega
  have htakelen : (T.take s).length = s := by
    simp [List.length_take]
    omega
  have hr1 : tabHandler T c true =
      { value := T.take s ++ T.drop (s + 2), caret := (c : Int) - 2 } := by
    simp [tabHandler, indentation, hs, hunit]
  have htake : (T.take s ++ T.drop (s + 2)).take s = T.take s :=
    List.take_left' htakelen
  have hdrop2 : (T.take s ++ T.drop (s + 2)).drop s = T.drop (s + 2) :=
    List.drop_left' htakelen
  have hres : tabHandler (T.take s ++ T.drop (s + 2)) s false =
      { value := T, caret := (s : Int) + 2 } := by
    simp [tabHandler, indentation, htake, hdrop2, ← hdecomp, List.take_append_drop]
  have hproj : ((c : Int) - 2).toNat = s := by omega
  rw [hr1]
  show (tabHandler (T.take s ++ T.drop (s + 2)) (((c : Int) - 2).toNat) false).value = T ∧
    (tabHandler (T.take s ++ T.drop (s + 2)) (((c : Int) - 2).toNat) false).caret = (c : Int)
  rw [hproj, hres]
  refine ⟨rfl, ?_⟩
  show (s : Int) + 2 = (c : Int)
  omega

/-- Witness for the amended C3 at `T = "  foo"`, `c = 2` (caret immediately
after the unit): outdent then indent restores `T` and the caret. -/
theorem outdent_indent_roundtrip_amended_witness :
    (tabHandler (tabHandler [' ', ' ', 'f', 'o', 'o'] 2 true).value
        (tabHandler [' ', ' ', 'f', 'o', 'o'] 2 true).caret.toNat false).value =
      [' ', ' ', 'f', 'o', 'o'] :=
  (outdent_indent_roundtrip_amended [' ', ' ', 'f', 'o', 'o'] 2
    (by decide) (by decide)).1

/-- A key that occurs in no entry of an association list is not found by
`List.lookup`. -/
theorem lookup_eq_none_of_not_mem_keys (modes : List (String × String))
    (k : String) (hk : k ∉ modes.map Prod.fst) : modes.lookup k = none := by
  induction modes with
  | nil => rfl
  | cons p t ih =>
      obtain ⟨a, b⟩ := p
      simp only [List.map_cons, List.mem_cons] at hk
      push_neg at hk
      have hne : (k == a) = false := beq_eq_false_iff_ne.mpr hk.1
      simp [List.lookup, hne, ih hk.2]

/-- Claim C4 counterexample: a supplied empty `config.modes` object is truthy
in JavaScript, so the effective registry is the empty registry — it is not
replaced by the canonical `{text: "Plain Text"}` entry and the non-emptiness
invariant fails. -/
theorem registry_nonempty_cex :
    effectiveModes (some []) = [] ∧
    effectiveModes (some []) ≠ [(DEFAULT_MODE_KEY, DEFAULT_MODE_LABEL)] := by
  decide

/-- Claim C4 as amended: when `config.modes` is absent the effective registry
is exactly the canonical single entry `{text: "Plain Text"}` (in particular
non-empty); when `config.modes` is supplied — even empty — the effective
registry is the supplied mapping verbatim, so it is non-empty exactly when the
supplied mapping is. -/
theorem registry_default_amended :
    (∀ dc dm cdm, (construct dc dm none cdm).modes =
        [(DEFAULT_MODE_KEY, DEFAULT_MODE_LABEL)] ∧
      (construct dc dm none cdm).modes ≠ []) ∧
    (∀ dc dm m cdm, (construct dc dm (some m) cdm).modes = m) := by
  constructor
  · intro dc dm cdm
    refine ⟨rfl, ?_⟩
    show [(DEFAULT_MODE_KEY, DEFAULT_MODE_LABEL)] ≠ ([] : List (String × String))
    decide
  · intro dc dm m cdm
    rfl

/-- Claim C5: for every non-empty registry and every `defaultMode` key `k`
that is not a key of the registry, resolution warns exactly once and yields
the literal key `"text"`, whether or not `"text"` is registered; the same
warning count and resolved mode are observable on the constructed widget when
no prior mode is supplied. -/
theorem unknown_default_warns (modes : List (String × String)) (k : String)
    (_hne : modes ≠ []) (hk : k ∉ modes.map Prod.fst) :
    resolveSelectedMode modes (some k) = (some DEFAULT_MODE_KEY, 1) ∧
    ∀ dc, (construct dc none (some modes) (some k)).warnings = 1 ∧
      (construct dc none (some modes) (some k)).state._data.mode =
        some DEFAULT_MODE_KEY := by
  have hlook : modes.lookup k = none := lookup_eq_none_of_not_mem_keys modes k hk
  have hres : resolveSelectedMode modes (some k) = (some DEFAULT_MODE_KEY, 1) := by
    simp [resolveSelectedMode, modeLookupTruthy, hlook]
  refine ⟨hres, fun dc => ?_⟩
  constructor
  · show (resolveSelectedMode (effectiveModes (some modes)) (some k)).2 = 1
    rw [show effectiveModes (some modes) = modes from rfl, hres]
  · show jsOrString none (resolveSelectedMode (effectiveModes (some modes)) (some k)).1 =
      some DEFAULT_MODE_KEY
    rw [show effectiveModes (some modes) = modes from rfl, hres]
    rfl

/-- Witness for C5 at `modes = {js: "JavaScript"}`, `k = "go"`: one warning,
resolved key `"text"` even though `"text"` is not registered. -/
theorem unknown_default_warns_witness :
    resolveSelectedMode [("js", "JavaScript")] (some "go") = (some "text", 1) ∧
    ∀ dc, (construct dc none (some [("js", "JavaScript")]) (some "go")).warnings = 1 ∧
      (construct dc none (some [("js", "JavaScript")]) (some "go")).state._data.mode =
        some "text" :=
  unknown_default_warns [("js", "JavaScript")] "go" (by decide) (by decide)

/-- Claim C6: when `config.defaultMode` is absent, construction emits no
warning and (absent a prior mode) the effective initial mode is the first key
of the effective registry in registration order (`none` when the registry is
empty, modelling `undefined`). -/
theorem absent_default_first_key (configModes : Option (List (String × String)))
    (dc : Option String) :
    (construct dc none configModes none).warnings = 0 ∧
    (construct dc none configModes none).state._data.mode =
      ((effectiveModes configModes).map Prod.fst).head? := by
  exact ⟨rfl, rfl⟩

/-- Claim C7 counterexample: with prior data `{mode: ""}` and
`defaultMode = "go"` over the registry `{go: "Go"}`, the effective initial
mode is `"go"`, not the prior empty-string mode that `priorData.mode ??
initialSelectedKey` would give: `data.mode || selectedMode` treats `""` as
absent. -/
theorem prior_mode_override_cex :
    (construct none (some "") (some [("go", "Go")]) (some "go")).state._data.mode =
      some "go" ∧
    (some "go" : Option String) ≠ some "" := by
  decide

/-- Claim C7 as amended: a prior `mode` field overrides the key resolved from
`defaultMode` exactly when it is a non-empty string (unregistered keys
included); when it is absent or the empty string, the resolved initial key
applies. -/
theorem prior_mode_override_amended (dc dm : Option String)
    (cm : Option (List (String × String))) (cdm : Option String) :
    (∀ m, dm = some m → m ≠ "" →
      (construct dc dm cm cdm).state._data.mode = some m) ∧
    ((dm = none ∨ dm = some "") →
      (construct dc dm cm cdm).state._data.mode =
        (resolveSelectedMode (effectiveModes cm) cdm).1) := by
  constructor
  · intro m hm hne
    show jsOrString dm (resolveSelectedMode (effectiveModes cm) cdm).1 = some m
    rw [hm]
    simp [jsOrString, hne]
  · intro hdm
    show jsOrString dm (resolveSelectedMode (effectiveModes cm) cdm).1 =
      (resolveSelectedMode (effectiveModes cm) cdm).1
    rcases hdm with h | h <;> rw [h] <;> simp [jsOrString]

/-- Witness for the amended C7: the unregistered non-empty prior mode `"py"`
overrides the resolved key `"go"`, while a prior empty-string mode falls back
to the resolved key. -/
theorem prior_mode_override_amended_witness :
    (construct none (some "py") (some [("go", "Go")]) (some "go")).state._data.mode =
      some "py" ∧
    (construct none (some "") (some [("go", "Go")]) (some "go")).state._data.mode =
      (resolveSelectedMode (effectiveModes (some [("go", "Go")])) (some "go")).1 :=
  ⟨(prior_mode_override_amended none (some "py") (some [("go", "Go")]) (some "go")).1
      "py" rfl (by decide),
   (prior_mode_override_amended none (some "") (some [("go", "Go")]) (some "go")).2
      (Or.inr rfl)⟩

/-- Claim C8: after any sequence of interactions on a widget whose textarea
node exists, `save` returns exactly the record whose `code` is the live
text-surface content and whose `mode` is the most recent selection recorded by
the mode-change handler (or the effective initial mode if never changed). -/
theorem save_contract (es : List UserEvent) (s : CodeToolState) (v : String)
    (h : s.textareaNode = some v) :
    save (run s es) =
      some { code := specFinalText v es, mode := specLastMode s._data.mode es } := by
  induction es generalizing s v with
  | nil =>
      simp [run, save, h, specFinalText, specLastMode]
  | cons e t ih =>
      cases e with
      | editText tx =>
          have hstep : (step s (UserEvent.editText tx)).textareaNode = some tx := by
            simp [step, h]
          have hrec := ih (step s (UserEvent.editText tx)) tx hstep
          simpa [run, step, specFinalText, specLastMode] using hrec
      | changeMode m =>
          have hstep : (step s (UserEvent.changeMode m)).textareaNode = some v := by
            simp [step, h]
          have hrec := ih (step s (UserEvent.changeMode m)) v hstep
          simpa [run, step, specFinalText, specLastMode] using hrec
      | paste tx =>
          have hstep : (step s (UserEvent.paste tx)).textareaNode = some tx := by
            simp [step, onPaste, setData, h]
          have hrec := ih (step s (UserEvent.paste tx)) tx hstep
          simpa [run, step, onPaste, setData, specFinalText, specLastMode] using hrec

/-- Witness for C8, spec scenario 5: on a widget constructed with default mode
`"go"`, editing the surface to `"x=1"` and saving yields
`{code: "x=1", mode: "go"}`. -/
theorem save_contract_witness :
    save (run (construct (some "") none
        (some [("js", "JavaScript"), ("go", "Go")]) (some "go")).state
      [UserEvent.editText "x=1"]) =
      some { code := "x=1", mode := some "go" } := by
  have hres := save_contract [UserEvent.editText "x=1"]
    (construct (some "") none
      (some [("js", "JavaScript"), ("go", "Go")]) (some "go")).state
    "" (by decide)
  simpa using hres

/-- Claim C9: paste intake replaces the stored `code` field with the pasted
node's text content verbatim and leaves the stored `mode` field unchanged. -/
theorem paste_replaces_code (s : CodeToolState) (t : String) :
    (onPaste s t)._data.code = t ∧ (onPaste s t)._data.mode = s._data.mode :=
  ⟨rfl, rfl⟩

/-- Claim C10: every data write stores the new record; it overwrites the
textarea's displayed content with the new `code` field exactly when the
textarea node exists, and it never touches the selector — in particular the
paste-intake write leaves the selector's displayed selection unchanged. -/
theorem data_setter_frame (s : CodeToolState) (d : CodeData) (t : String) :
    (setData s d)._data = d ∧
    (setData s d).selectorNode = s.selectorNode ∧
    (∀ v, s.textareaNode = some v → (setData s d).textareaNode = some d.code) ∧
    (s.textareaNode = none → (setData s d).textareaNode = none) ∧
    (onPaste s t).selectorNode = s.selectorNode := by
  refine ⟨rfl, rfl, fun v hv => ?_, fun hv => ?_, rfl⟩
  · simp [setData, hv]
  · simp [setData, hv]

/-- Witness for C10 on concrete states: with a textarea present the write
pushes the new code into the view; with no view nodes it stores the record
only. -/
theorem data_setter_frame_witness :
    (setData sampleStateWithView sampleRecord).textareaNode = some "b" ∧
    (setData sampleStateNoView sampleRecord).textareaNode = none :=
  ⟨(data_setter_frame sampleStateWithView sampleRecord "p").2.2.1 "a" rfl,
   (data_setter_frame sampleStateNoView sampleRecord "p").2.2.2.1 rfl⟩
